import Mathlib

/-
Verification of the sitemap-url-counter tool (src/src/main.rs) against its
design specification.

The embedding translates the Rust source into Lean definitions:
 - `clean_xml_content` mirrors the entity-replacement-then-trim function
   (main.rs lines 10-18), with `replaceAllAux` implementing Rust's
   `str::replace` (leftmost, non-overlapping, single pass per pattern).
 - The streaming XML scan of the quick_xml reader is embedded as a two-phase
   tokenizer (`lexAux` splits the byte stream into tag/text chunks,
   `eventsOf` classifies chunks into start/end/empty-tag and text events,
   checking end-tag names against the open-element stack).
 - `extract_sitemaps` and `count_urls` mirror the two scanner loops
   (main.rs lines 114-165 and 167-199).
 - `fetch_url` mirrors the curl-subprocess fetcher (main.rs lines 80-112);
   the curl invocation is embedded as its argument list and the transport
   outcome as an explicit `CurlOutcome` input.
 - `processSitemaps` / `leafSitemaps` mirror the aggregator loop of `main`
   (lines 37-75), with the `HashMap` embedded as a key-unique association
   list (`insertMap` overwrites, like `HashMap::insert`).
-/

namespace SitemapCounter

/-- Whitespace trimming on character lists; mirrors `str::trim` for the ASCII
whitespace that occurs in the documents under consideration (Lean's
`Char.isWhitespace` covers space, tab, CR, LF). -/
def trimWsList (l : List Char) : List Char :=
  ((l.dropWhile Char.isWhitespace).reverse.dropWhile Char.isWhitespace).reverse

/-- Leftmost, non-overlapping replacement of `pat` by `rep`, mirroring Rust's
`str::replace`. The `skip` counter consumes the remaining characters of a
matched pattern occurrence without emitting them. -/
def replaceAllAux (pat rep : List Char) : Nat → List Char → List Char
  | _, [] => []
  | k+1, _ :: rest => replaceAllAux pat rep k rest
  | 0, c :: rest =>
    if pat.isPrefixOf (c :: rest) && !pat.isEmpty then
      rep ++ replaceAllAux pat rep (pat.length - 1) rest
    else
      c :: replaceAllAux pat rep 0 rest

/-- String-level replacement, mirroring Rust's `str::replace`. -/
def strReplace (s pat rep : String) : String :=
  String.mk (replaceAllAux pat.data rep.data 0 s.data)

/-- String-level trim, mirroring `str::trim`. -/
def strTrim (s : String) : String :=
  String.mk (trimWsList s.data)

/-- Embedding of `clean_xml_content` (main.rs lines 10-18): four literal
entity replacements applied in the source's fixed order, then trim. -/
def clean_xml_content (content : String) : String :=
  strTrim (strReplace (strReplace (strReplace (strReplace content "&lt;" "<") "&gt;" ">") "&quot;" "\"") "&amp;" "&")

/-- A lexical chunk of an XML document: the raw contents of one tag (the
characters between an angle-bracket pair) or one run of text between tags. -/
inductive Chunk where
  | tagC (content : List Char)
  | textC (content : List Char)
deriving DecidableEq

/-- Splits a character stream into tag and text chunks the way the quick_xml
reader consumes it: a tag runs from a left to the next right angle bracket, a
text node is everything between two tags (or before the first / after the
last tag). `inTag` records whether we are inside an angle-bracket pair and
`buf` accumulates the current chunk in reverse. A document that ends in the
middle of a tag is rejected.

Modelled from the spec: the quick_xml reader itself is an external
dependency whose sources (and pinned version) are not part of src/, so its
treatment of a document truncated inside a tag follows the spec's statement
that malformed XML yields a parse error. -/
def lexAux (inTag : Bool) (buf : List Char) : List Char → Except String (List Chunk)
  | [] =>
    if inTag then .error "unclosed tag"
    else if buf.isEmpty then .ok []
    else .ok [Chunk.textC buf.reverse]
  | c :: rest =>
    if inTag then
      if c = '>' then (lexAux false [] rest).map (fun ch => Chunk.tagC buf.reverse :: ch)
      else lexAux true (c :: buf) rest
    else
      if c = '<' then
        if buf.isEmpty then lexAux true [] rest
        else (lexAux true [] rest).map (fun ch => Chunk.textC buf.reverse :: ch)
      else lexAux false (c :: buf) rest

/-- An event of the streamed XML scan, mirroring the quick_xml `Event`
constructors used by the two scanners. Tag names are the qualified names as
written in the document (quick_xml's `name()`), taken up to the first
whitespace character, so attributes are not part of the name. -/
inductive XmlEvent where
  | startTag (name : String)
  | endTag (name : String)
  | emptyTag (name : String)
  | text (raw : String)
deriving DecidableEq

/-- Qualified tag name: the characters of the tag up to the first whitespace
(attributes follow the name and are dropped). -/
def tagName (l : List Char) : String :=
  String.mk (l.takeWhile (fun ch => !ch.isWhitespace))

/-- Turns lexical chunks into scan events. Start tags push their name on the
open-element stack; end tags must match the top of the stack (quick_xml's
default `check_end_names` behaviour); self-closing tags produce an
`emptyTag` event; processing instructions and bang-tags produce no event;
text chunks are trimmed and dropped when `trim` is set (the reader's
`trim_text(true)` mode used by `extract_sitemaps`).

Modelled from the spec: the quick_xml reader is an external dependency not
under src/; end-of-document with still-open elements is treated as a parse
error, following the spec's statement that malformed XML yields a parse
error. -/
def eventsOf (trim : Bool) (stack : List String) : List Chunk → Except String (List XmlEvent)
  | [] =>
    if stack.isEmpty then .ok [] else .error "missing end tag"
  | Chunk.textC t :: rest =>
    let t2 := if trim then trimWsList t else t
    if t2.isEmpty then eventsOf trim stack rest
    else (eventsOf trim stack rest).map (fun evs => XmlEvent.text (String.mk t2) :: evs)
  | Chunk.tagC t :: rest =>
    match t with
    | [] => .error "empty tag"
    | t0 :: ttail =>
      if t0 = '/' then
        match stack with
        | [] => .error "end event mismatch"
        | top :: stack2 =>
          if top = tagName ttail then
            (eventsOf trim stack2 rest).map (fun evs => XmlEvent.endTag (tagName ttail) :: evs)
          else .error "end event mismatch"
      else if t0 = '?' || t0 = '!' then
        eventsOf trim stack rest
      else if (t0 :: ttail).getLast? = some '/' then
        (eventsOf trim stack rest).map
          (fun evs => XmlEvent.emptyTag (tagName (t0 :: ttail).dropLast) :: evs)
      else
        (eventsOf trim (tagName (t0 :: ttail) :: stack) rest).map
          (fun evs => XmlEvent.startTag (tagName (t0 :: ttail)) :: evs)

/-- The event stream the quick_xml reader produces for a document, with
`trim` selecting the reader's `trim_text` mode. -/
def tokenizeXml (trim : Bool) (content : String) : Except String (List XmlEvent) :=
  match lexAux false [] content.data with
  | .error e => .error e
  | .ok chunks => eventsOf trim [] chunks

/-- Single-pass unescaping of the named XML entity references that
quick_xml's `unescape` resolves, applied by the scanners to text nodes. The
`skip` counter consumes the remaining characters of a recognised entity
reference. Unrecognised references are left unchanged (the documents under
consideration contain none). -/
def entityTable : List (List Char × Char) :=
  [("&lt;".data, '<'), ("&gt;".data, '>'), ("&amp;".data, '&'),
   ("&quot;".data, '"'), ("&apos;".data, Char.ofNat 39)]

/-- Single-pass entity unescaping over a character list. -/
def xmlUnescapeAux : Nat → List Char → List Char
  | _, [] => []
  | k+1, _ :: rest => xmlUnescapeAux k rest
  | 0, c :: rest =>
    match entityTable.find? (fun e => e.fst.isPrefixOf (c :: rest)) with
    | some e => e.snd :: xmlUnescapeAux (e.fst.length - 1) rest
    | none => c :: xmlUnescapeAux 0 rest

/-- Embedding of quick_xml's `unescape` on a text node. -/
def xmlUnescape (s : String) : String :=
  String.mk (xmlUnescapeAux 0 s.data)

/-- The scanner loop of `extract_sitemaps` (main.rs lines 134-160): walks the
event stream with the `in_sitemap` / `in_loc` flags, collecting the first
text node seen while `in_loc` is set. The match arms mirror the source's
order: a `sitemap` start or end tag is handled before the `loc` and text
arms, `in_sitemap` gates only the setting of `in_loc`, and `in_loc` is
cleared only by a text node. -/
def extractLoop : List XmlEvent → Bool → Bool → List String → List String
  | [], _, _, acc => acc.reverse
  | ev :: rest, inSitemap, inLoc, acc =>
    match ev with
    | XmlEvent.startTag n =>
      if n = "sitemap" then extractLoop rest true inLoc acc
      else if inSitemap && n = "loc" then extractLoop rest inSitemap true acc
      else extractLoop rest inSitemap inLoc acc
    | XmlEvent.endTag n =>
      if n = "sitemap" then extractLoop rest false inLoc acc
      else extractLoop rest inSitemap inLoc acc
    | XmlEvent.text s =>
      if inLoc then extractLoop rest inSitemap false (xmlUnescape s :: acc)
      else extractLoop rest inSitemap inLoc acc
    | XmlEvent.emptyTag _ => extractLoop rest inSitemap inLoc acc

/-- Embedding of `extract_sitemaps` (main.rs lines 114-165): reader with
`trim_text(true)`, then the flag-driven scan; a reader error is returned as
a parse error. -/
def extract_sitemaps (content : String) : Except String (List String) :=
  match tokenizeXml true content with
  | .error e => .error e
  | .ok evs => .ok (extractLoop evs false false [])

/-- The scanner loop of `count_urls` (main.rs lines 174-195): same discipline
as `extractLoop` but keyed on `url`/`loc`, incrementing a counter instead of
collecting text. -/
def countLoop : List XmlEvent → Bool → Bool → Nat → Nat
  | [], _, _, n => n
  | ev :: rest, inUrl, inLoc, n =>
    match ev with
    | XmlEvent.startTag name =>
      if name = "url" then countLoop rest true inLoc n
      else if inUrl && name = "loc" then countLoop rest inUrl true n
      else countLoop rest inUrl inLoc n
    | XmlEvent.endTag name =>
      if name = "url" then countLoop rest false inLoc n
      else countLoop rest inUrl inLoc n
    | XmlEvent.text _ =>
      if inLoc then countLoop rest inUrl false (n + 1)
      else countLoop rest inUrl inLoc n
    | XmlEvent.emptyTag _ => countLoop rest inUrl inLoc n

/-- Embedding of `count_urls` (main.rs lines 167-199): reader without text
trimming, then the flag-driven count; a reader error is returned as a parse
error. -/
def count_urls (content : String) : Except String Nat :=
  match tokenizeXml false content with
  | .error e => .error e
  | .ok evs => .ok (countLoop evs false false 0)

/-- Strict UTF-8 decoding of a byte sequence, as performed by Rust's
`String::from_utf8` on the curl output (main.rs line 97). `pending` carries
the state of a partially read multi-byte sequence: the number of
continuation bytes still required, the code point accumulated so far, and
the smallest code point the sequence is allowed to encode (rejecting
overlong encodings). Surrogate code points and values above U+10FFFF are
rejected. -/
def utf8DecodeAux (pending : Option (Nat × Nat × Nat)) : List Nat → Option (List Char)
  | [] => match pending with | none => some [] | some _ => none
  | b :: rest =>
    match pending with
    | some (need, acc, minVal) =>
      if 0x80 ≤ b ∧ b < 0xC0 then
        let acc2 := acc * 64 + (b - 0x80)
        if need = 1 then
          if minVal ≤ acc2 ∧ acc2 < 0x110000 ∧ ¬ (0xD800 ≤ acc2 ∧ acc2 < 0xE000) then
            (utf8DecodeAux none rest).map (fun cs => Char.ofNat acc2 :: cs)
          else none
        else utf8DecodeAux (some (need - 1, acc2, minVal)) rest
      else none
    | none =>
      if b < 0x80 then (utf8DecodeAux none rest).map (fun cs => Char.ofNat b :: cs)
      else if 0xC0 ≤ b ∧ b < 0xE0 then utf8DecodeAux (some (1, b - 0xC0, 0x80)) rest
      else if 0xE0 ≤ b ∧ b < 0xF0 then utf8DecodeAux (some (2, b - 0xE0, 0x800)) rest
      else if 0xF0 ≤ b ∧ b < 0xF8 then utf8DecodeAux (some (3, b - 0xF0, 0x10000)) rest
      else none

/-- UTF-8 decoding of a full byte sequence. -/
def utf8Decode (bytes : List Nat) : Option (List Char) :=
  utf8DecodeAux none bytes

/-- UTF-8 encoding of one character. -/
def charUtf8 (c : Char) : List Nat :=
  let n := c.toNat
  if n < 0x80 then [n]
  else if n < 0x800 then [0xC0 + n / 64, 0x80 + n % 64]
  else if n < 0x10000 then [0xE0 + n / 4096, 0x80 + (n / 64) % 64, 0x80 + n % 64]
  else [0xF0 + n / 262144, 0x80 + (n / 4096) % 64, 0x80 + (n / 64) % 64, 0x80 + n % 64]

/-- The UTF-8 byte sequence of a string, as Rust's `str::as_bytes` exposes
it. -/
def utf8Bytes (s : String) : List Nat :=
  s.data.foldr (fun c acc => charUtf8 c ++ acc) []

/-- Rust's `str::is_char_boundary` on a UTF-8 byte sequence: an index is a
character boundary when it is the length of the sequence or the byte at the
index is not a continuation byte. -/
def isCharBoundary (bytes : List Nat) (i : Nat) : Bool :=
  if i = bytes.length then true
  else if i < bytes.length then
    decide (bytes.getD i 0 < 0x80) || decide (0xC0 ≤ bytes.getD i 0)
  else false

/-- The end index of the debug snippet slice in `fetch_url` (main.rs line
105): `std::cmp::min(500, content.len())` in bytes. -/
def debugSnippetEnd (bytes : List Nat) : Nat :=
  min 500 bytes.length

/-- Whether the debug snippet slice `&content[..min(500, content.len())]`
(main.rs lines 102-107) panics: Rust byte-range slicing of a `str` panics
exactly when the end index is not a character boundary. -/
def debugSnippetPanics (bytes : List Nat) : Bool :=
  !isCharBoundary bytes (debugSnippetEnd bytes)

/-- Outcome of the curl subprocess run by `fetch_url`: a non-success exit
status, or the bytes written to stdout. -/
inductive CurlOutcome where
  | failed (status : Int)
  | output (stdout : List Nat)

/-- The fixed browser user-agent string passed to curl (main.rs line 88). -/
def userAgent : String :=
  "Mozilla/5.0 (Windows NT 10.0; Win64; x64) AppleWebKit/537.36 (KHTML, like Gecko) Chrome/115.0.0.0 Safari/537.36"

/-- The argument list of the curl invocation built by `fetch_url` (main.rs
lines 84-90): silent mode, follow redirects, the fixed user-agent, and the
target URL. -/
def curlArgs (url : String) : List String :=
  ["-s", "-L", "-A", userAgent, url]

/-- Curl options that would bound the duration of a transfer. The invocation
built by `fetch_url` passes none of them. -/
def timeoutFlags : List String :=
  ["-m", "--max-time", "--connect-timeout"]

/-- Whether the curl invocation for `url` carries any timeout option. -/
def fetchAppliesTimeoutFlag (url : String) : Bool :=
  (curlArgs url).any (fun a => decide (a ∈ timeoutFlags))

/-- Configuration of the reqwest HTTP client built in `main` (main.rs lines
29-33): a cookie store and a request timeout in seconds. -/
structure ClientConfig where
  cookieStore : Bool
  timeoutSecs : Option Nat
deriving DecidableEq

/-- The client `main` builds: cookie store enabled, 15-second timeout. -/
def mainClient : ClientConfig :=
  ⟨true, some 15⟩

/-- Embedding of `fetch_url` (main.rs lines 80-112). The `_client` parameter
is ignored, exactly as the Rust parameter `_client` is: the function shells
out to curl instead. A non-success curl exit is a transport error; stdout
that is not valid UTF-8 is an encoding error; otherwise the decoded body is
passed through `clean_xml_content`. -/
def fetch_url (_client : ClientConfig) (_url : String) (outcome : CurlOutcome) : Except String String :=
  match outcome with
  | CurlOutcome.failed _ => .error "curl command failed"
  | CurlOutcome.output bytes =>
    match utf8Decode bytes with
    | none => .error "Curl output was not valid UTF-8"
    | some chars => .ok (clean_xml_content (String.mk chars))

/-- True exactly on successful results. -/
def isOkE {α : Type} (r : Except String α) : Bool :=
  match r with
  | .ok _ => true
  | .error _ => false

/-- The leaf-sitemap list computed by `main` (main.rs lines 37-41): the
child sitemaps extracted from the root document, or the one-element list
holding the root URL itself when no children were found. -/
def leafSitemaps (content rootUrl : String) : Except String (List String) :=
  match extract_sitemaps content with
  | .error e => .error e
  | .ok urls => .ok (if urls.isEmpty then [rootUrl] else urls)

/-- Key-unique association list insertion, mirroring `HashMap::insert`
(main.rs line 64): an existing entry for the key is overwritten, otherwise
the pair is appended. -/
def insertMap (k : String) (v : Nat) : List (String × Nat) → List (String × Nat)
  | [] => [(k, v)]
  | (k2, v2) :: rest => if k2 = k then (k, v) :: rest else (k2, v2) :: insertMap k v rest

/-- Lookup in the association list embedding of the `HashMap`. -/
def lookupMap : List (String × Nat) → String → Option Nat
  | [], _ => none
  | (k2, v2) :: rest, k => if k2 = k then some v2 else lookupMap rest k

/-- One iteration of the aggregator loop body (main.rs lines 54-55): fetch
the sitemap and count its URLs, aborting on either failure. The curl
outcome for each URL is supplied by the environment `env`. -/
def fetchCount (env : String → CurlOutcome) (u : String) : Except String Nat :=
  match fetch_url mainClient u (env u) with
  | .error e => .error e
  | .ok content => count_urls content

/-- The aggregator loop of `main` (main.rs lines 50-66): for each sitemap
URL in order, fetch and count, then record the count keyed by the URL. Any
fetch or parse failure aborts the whole run. -/
def processSitemaps (env : String → CurlOutcome) : List String → List (String × Nat) → Except String (List (String × Nat))
  | [], acc => .ok acc
  | u :: rest, acc =>
    match fetchCount env u with
    | .error e => .error e
    | .ok c => processSitemaps env rest (insertMap u c acc)

/-- The grand total printed by `main` (main.rs line 71):
`url_counts.values().sum()`. -/
def totalUrls (m : List (String × Nat)) : Nat :=
  (m.map Prod.snd).sum

/-- The URL count the environment determines for one sitemap URL (the value
recorded whenever `fetchCount` succeeds). -/
def countValue (env : String → CurlOutcome) (u : String) : Nat :=
  match fetchCount env u with
  | .ok c => c
  | .error _ => 0

/-- An association list is a faithful record of the environment's counts when
its keys are distinct and every stored value is the count the environment
determines for its key. -/
def goodMap (env : String → CurlOutcome) (m : List (String × Nat)) : Prop :=
  ((m.map Prod.fst).Nodup) ∧ ∀ p ∈ m, p.2 = countValue env p.1

theorem lookupMap_mem {m : List (String × Nat)} {u : String} {c : Nat}
    (h : lookupMap m u = some c) : (u, c) ∈ m := by
  induction m with
  | nil => simp [lookupMap] at h
  | cons p rest ih =>
    obtain ⟨k2, v2⟩ := p
    simp only [lookupMap] at h
    by_cases hk : k2 = u
    · simp only [hk, if_pos rfl] at h
      cases h
      subst hk
      exact List.mem_cons_self _ _
    · rw [if_neg hk] at h
      exact List.mem_cons_of_mem _ (ih h)

theorem insertMap_mem {k : String} {v : Nat} {m : List (String × Nat)}
    {p : String × Nat} (h : p ∈ insertMap k v m) : p = (k, v) ∨ p ∈ m := by
  induction m with
  | nil => simp [insertMap] at h; exact Or.inl h
  | cons q rest ih =>
    obtain ⟨k2, v2⟩ := q
    simp only [insertMap] at h
    by_cases hk : k2 = k
    · rw [if_pos hk] at h
      rcases List.mem_cons.mp h with h1 | h2
      · exact Or.inl h1
      · exact Or.inr (List.mem_cons_of_mem _ h2)
    · rw [if_neg hk] at h
      rcases List.mem_cons.mp h with h1 | h2
      · exact Or.inr (h1 ▸ List.mem_cons_self _ _)
      · rcases ih h2 with h3 | h4
        · exact Or.inl h3
        · exact Or.inr (List.mem_cons_of_mem _ h4)

theorem insertMap_keys_mem {k : String} {v : Nat} {m : List (String × Nat)} {a : String} :
    a ∈ (insertMap k v m).map Prod.fst ↔ a = k ∨ a ∈ m.map Prod.fst := by
  induction m with
  | nil => simp [insertMap]
  | cons q rest ih =>
    obtain ⟨k2, v2⟩ := q
    simp only [insertMap]
    by_cases hk : k2 = k
    · rw [if_pos hk]
      subst hk
      simp
    · rw [if_neg hk]
      simp only [List.map_cons, List.mem_cons, ih]
      tauto

theorem insertMap_keys_nodup {k : String} {v : Nat} {m : List (String × Nat)}
    (h : (m.map Prod.fst).Nodup) : ((insertMap k v m).map Prod.fst).Nodup := by
  induction m with
  | nil => simp [insertMap]
  | cons q rest ih =>
    obtain ⟨k2, v2⟩ := q
    simp only [List.map_cons, List.nodup_cons] at h
    simp only [insertMap]
    by_cases hk : k2 = k
    · rw [if_pos hk]
      subst hk
      simp only [List.map_cons, List.nodup_cons]
      exact h
    · rw [if_neg hk]
      simp only [List.map_cons, List.nodup_cons]
      refine ⟨?_, ih h.2⟩
      intro hmem
      rcases insertMap_keys_mem.mp hmem with h1 | h2
      · exact hk h1
      · exact h.1 h2

theorem insertMap_keys_toFinset {k : String} {v : Nat} {m : List (String × Nat)} :
    ((insertMap k v m).map Prod.fst).toFinset = insert k ((m.map Prod.fst).toFinset) := by
  ext a
  simp only [List.mem_toFinset, Finset.mem_insert]
  exact insertMap_keys_mem

theorem goodMap_insert (env : String → CurlOutcome) {m : List (String × Nat)} (k : String)
    (h : goodMap env m) : goodMap env (insertMap k (countValue env k) m) := by
  refine ⟨insertMap_keys_nodup h.1, ?_⟩
  intro p hp
  rcases insertMap_mem hp with h1 | h2
  · rw [h1]
  · exact h.2 p h2

theorem sumValues_eq_finset_sum (env : String → CurlOutcome) :
    ∀ (m : List (String × Nat)), goodMap env m →
      totalUrls m = Finset.sum ((m.map Prod.fst).toFinset) (fun u => countValue env u) := by
  intro m
  induction m with
  | nil => intro _; simp [totalUrls]
  | cons p rest ih =>
    intro hg
    obtain ⟨k, v⟩ := p
    have hnd : (k :: rest.map Prod.fst).Nodup := by simpa using hg.1
    have hk : k ∉ rest.map Prod.fst := (List.nodup_cons.mp hnd).1
    have hv : v = countValue env k := hg.2 (k, v) (List.mem_cons_self _ _)
    have hrest : goodMap env rest :=
      ⟨(List.nodup_cons.mp hnd).2, fun q hq => hg.2 q (List.mem_cons_of_mem _ hq)⟩
    have hstep : totalUrls ((k, v) :: rest) = v + totalUrls rest := by
      simp [totalUrls]
    rw [hstep, hv, ih hrest, List.map_cons, List.toFinset_cons,
      Finset.sum_insert (by simpa using hk)]

theorem processSitemaps_ok (env : String → CurlOutcome) :
    ∀ (urls : List String) (acc m : List (String × Nat)),
      processSitemaps env urls acc = .ok m → goodMap env acc →
      goodMap env m ∧
      ((m.map Prod.fst).toFinset = ((acc.map Prod.fst).toFinset) ∪ urls.toFinset) ∧
      (∀ u ∈ urls, isOkE (fetchCount env u) = true) := by
  intro urls
  induction urls with
  | nil =>
    intro acc m h hg
    simp only [processSitemaps] at h
    cases h
    exact ⟨hg, by simp, by simp⟩
  | cons u rest ih =>
    intro acc m h hg
    simp only [processSitemaps] at h
    cases hfc : fetchCount env u with
    | error e => rw [hfc] at h; cases h
    | ok c =>
      rw [hfc] at h
      have hcv : c = countValue env u := by simp [countValue, hfc]
      have hg2 : goodMap env (insertMap u c acc) := by
        rw [hcv]; exact goodMap_insert env u hg
      obtain ⟨g, tf, hok⟩ := ih (insertMap u c acc) m h hg2
      refine ⟨g, ?_, ?_⟩
      · rw [tf, insertMap_keys_toFinset, List.toFinset_cons,
          Finset.insert_union, Finset.union_insert]
      · intro u2 hu2
        rcases List.mem_cons.mp hu2 with h1 | h2
        · subst h1; simp [isOkE, hfc]
        · exact hok u2 h2

/-! Claim theorems. -/

/-- C1, counterexample: the fetch operation does not apply the claimed
15-second timeout. The curl invocation built by `fetch_url` carries no
timeout option at all, and although `main` configures an HTTP client with a
15-second timeout, `fetch_url` ignores that client: its result at this
concrete input is identical under the 15-second-timeout client and under a
client with no timeout configured. -/
theorem fetch_timeout_counterexample :
    fetchAppliesTimeoutFlag "https://example.com/sitemap.xml" = false ∧
    mainClient.timeoutSecs = some 15 ∧
    fetch_url mainClient "https://example.com/sitemap.xml" (CurlOutcome.output [60]) =
      fetch_url ⟨false, none⟩ "https://example.com/sitemap.xml" (CurlOutcome.output [60]) :=
  ⟨rfl, rfl, rfl⟩

/-- C1, amended: every call of the fetch operation runs a curl subprocess in
silent mode with redirect following and the fixed browser user-agent string,
and returns a transport error when curl exits unsuccessfully; but no timeout
bound applies to the fetch: the curl invocation passes no timeout option
(whenever the URL itself is not literally such an option string), and the
result is independent of the configured HTTP client, so the 15-second
client timeout never takes effect. -/
theorem fetch_browser_get_no_timeout (url : String) (c c' : ClientConfig)
    (outcome : CurlOutcome) (st : Int) (h : url ∉ timeoutFlags) :
    "-L" ∈ curlArgs url ∧ "-A" ∈ curlArgs url ∧ userAgent ∈ curlArgs url ∧
    fetchAppliesTimeoutFlag url = false ∧
    fetch_url c url outcome = fetch_url c' url outcome ∧
    fetch_url c url (CurlOutcome.failed st) = .error "curl command failed" := by
  refine ⟨by simp [curlArgs], by simp [curlArgs], by simp [curlArgs], ?_, rfl, rfl⟩
  have h1 : decide (("-s" : String) ∈ timeoutFlags) = false := by decide
  have h2 : decide (("-L" : String) ∈ timeoutFlags) = false := by decide
  have h3 : decide (("-A" : String) ∈ timeoutFlags) = false := by decide
  have h4 : decide (userAgent ∈ timeoutFlags) = false := by decide
  have h5 : decide (url ∈ timeoutFlags) = false := decide_eq_false h
  simp [fetchAppliesTimeoutFlag, curlArgs, h1, h2, h3, h4, h5]

/-- C1, witness for the amended theorem at a concrete URL, client pair,
curl outcome and exit status. -/
theorem fetch_browser_get_no_timeout_witness :
    "-L" ∈ curlArgs "https://example.com/sitemap.xml" ∧
    "-A" ∈ curlArgs "https://example.com/sitemap.xml" ∧
    userAgent ∈ curlArgs "https://example.com/sitemap.xml" ∧
    fetchAppliesTimeoutFlag "https://example.com/sitemap.xml" = false ∧
    fetch_url mainClient "https://example.com/sitemap.xml" (CurlOutcome.output [60]) =
      fetch_url ⟨false, none⟩ "https://example.com/sitemap.xml" (CurlOutcome.output [60]) ∧
    fetch_url mainClient "https://example.com/sitemap.xml" (CurlOutcome.failed 22) =
      .error "curl command failed" :=
  fetch_browser_get_no_timeout "https://example.com/sitemap.xml" mainClient ⟨false, none⟩
    (CurlOutcome.output [60]) 22 (by decide)

/-- C2, counterexample: matching is by the qualified tag name, not the local
name, so a namespace-prefixed element is not treated like the unprefixed
one: the prefixed sitemap index yields no children and the prefixed urlset
counts zero URLs, while the unprefixed documents yield one child and one
URL. -/
theorem scanners_prefix_counterexample :
    extract_sitemaps "<sitemapindex><ns:sitemap><ns:loc>A</ns:loc></ns:sitemap></sitemapindex>" = .ok [] ∧
    extract_sitemaps "<sitemapindex><sitemap><loc>A</loc></sitemap></sitemapindex>" = .ok ["A"] ∧
    count_urls "<urlset><ns:url><ns:loc>X</ns:loc></ns:url></urlset>" = .ok 0 ∧
    count_urls "<urlset><url><loc>X</loc></url></urlset>" = .ok 1 :=
  ⟨rfl, rfl, rfl, rfl⟩

/-- C2, amended: both scanners match elements by the full qualified tag name
as written in the document. Attributes are ignored (the name is taken up to
the first whitespace), but namespace prefixes are not: a prefixed
`ns:sitemap`, `ns:url` or `ns:loc` element is not matched, only the
unprefixed spelling is. -/
theorem scanners_match_qualified_name :
    count_urls "<urlset><url changefreq=\"daily\"><loc>X</loc></url></urlset>" = .ok 1 ∧
    extract_sitemaps "<sitemapindex><sitemap lastmod=\"2024\"><loc>A</loc></sitemap></sitemapindex>" = .ok ["A"] ∧
    count_urls "<urlset><ns:url><loc>X</loc></ns:url></urlset>" = .ok 0 ∧
    extract_sitemaps "<sitemapindex><ns:sitemap><loc>A</loc></ns:sitemap></sitemapindex>" = .ok [] :=
  ⟨rfl, rfl, rfl, rfl⟩

/-- C3: `count_urls` counts exactly the `loc` text nodes inside `url`
elements: the two-entry urlset counts 2, and a `loc` element outside any
`url` element is not counted, so the document with a stray top-level `loc`
counts 1. -/
theorem count_urls_examples :
    count_urls "<urlset><url><loc>X</loc></url><url><loc>Y</loc></url></urlset>" = .ok 2 ∧
    count_urls "<urlset><loc>ignored</loc><url><loc>X</loc></url></urlset>" = .ok 1 :=
  ⟨rfl, rfl⟩

/-- C4: `extract_sitemaps` on the two-entry sitemap index returns the child
URLs in document order. -/
theorem extract_sitemaps_ordered_pair :
    extract_sitemaps "<sitemapindex><sitemap><loc>A</loc></sitemap><sitemap><loc>B</loc></sitemap></sitemapindex>" = .ok ["A", "B"] :=
  rfl

/-- C5: when extraction of child sitemaps from the root document succeeds
with the empty sequence, the aggregator does not fail: the leaf-sitemap list
is exactly the one-element list containing the root URL itself. -/
theorem fallback_root_as_leaf (content rootUrl : String)
    (h : extract_sitemaps content = .ok []) :
    leafSitemaps content rootUrl = .ok [rootUrl] := by
  simp [leafSitemaps, h]

/-- C5, witness: a urlset document with no `sitemap` elements extracts to the
empty sequence, and the aggregator then uses the root URL as the sole leaf. -/
theorem fallback_root_as_leaf_witness :
    leafSitemaps "<urlset><url><loc>X</loc></url></urlset>" "https://example.com/sitemap.xml" =
      .ok ["https://example.com/sitemap.xml"] :=
  fallback_root_as_leaf "<urlset><url><loc>X</loc></url></urlset>"
    "https://example.com/sitemap.xml" (by rfl)

/-- C6: on successful completion of the aggregator loop, the record has
distinct keys, every stored count is the count the fetch-and-count pipeline
produces for its key, and the printed grand total (the sum of the stored
counts) equals the sum over the *distinct* sitemap URLs of their counts —
a URL listed more than once overwrites its prior entry and contributes
exactly once. -/
theorem total_counts_each_distinct_url_once (env : String → CurlOutcome)
    (urls : List String) (m : List (String × Nat))
    (h : processSitemaps env urls [] = .ok m) :
    ((m.map Prod.fst).Nodup) ∧
    (∀ u c, lookupMap m u = some c → fetchCount env u = .ok c) ∧
    totalUrls m = Finset.sum urls.toFinset (fun u => countValue env u) := by
  have hgood : goodMap env ([] : List (String × Nat)) := by
    constructor
    · simp
    · intro p hp; simp at hp
  obtain ⟨hg, htf, hok⟩ := processSitemaps_ok env urls [] m h hgood
  have htf2 : (m.map Prod.fst).toFinset = urls.toFinset := by simpa using htf
  refine ⟨hg.1, ?_, ?_⟩
  · intro u c hl
    have hpm : (u, c) ∈ m := lookupMap_mem hl
    have hcv : c = countValue env u := hg.2 (u, c) hpm
    have hu : u ∈ urls := by
      have hmem : u ∈ (m.map Prod.fst).toFinset :=
        List.mem_toFinset.mpr (List.mem_map.mpr ⟨(u, c), hpm, rfl⟩)
      rw [htf2] at hmem
      exact List.mem_toFinset.mp hmem
    have hok2 := hok u hu
    cases hfc : fetchCount env u with
    | error e => rw [hfc] at hok2; simp [isOkE] at hok2
    | ok c2 =>
      have hc2 : countValue env u = c2 := by simp [countValue, hfc]
      rw [hcv, hc2]
  · rw [sumValues_eq_finset_sum env m hg, htf2]

/-- The fetch environment used in the C6 witness: every URL serves the same
one-entry urlset. -/
def envDup : String → CurlOutcome :=
  fun _ => CurlOutcome.output (utf8Bytes "<urlset><url><loc>X</loc></url></urlset>")

/-- C6, witness: a run over a list naming the same sitemap URL twice ends
with a single record entry, and the total counts that URL's single entry
exactly once. -/
theorem total_counts_each_distinct_url_once_witness :
    ((([("https://example.com/a.xml", 1)] : List (String × Nat)).map Prod.fst).Nodup) ∧
    (∀ u c, lookupMap [("https://example.com/a.xml", 1)] u = some c → fetchCount envDup u = .ok c) ∧
    totalUrls [("https://example.com/a.xml", 1)] =
      Finset.sum (["https://example.com/a.xml", "https://example.com/a.xml"] : List String).toFinset
        (fun u => countValue envDup u) :=
  total_counts_each_distinct_url_once envDup
    ["https://example.com/a.xml", "https://example.com/a.xml"]
    [("https://example.com/a.xml", 1)] (by rfl)

/-- C7: a reader error on malformed XML is propagated by each scanner as a
parse error — neither scanner converts it into an empty sequence or a zero
count — and concretely, a document truncated inside a tag and a document
with a mismatched end tag are both rejected by both scanners. -/
theorem scanners_error_on_malformed :
    (∀ content e, tokenizeXml true content = .error e → extract_sitemaps content = .error e) ∧
    (∀ content e, tokenizeXml false content = .error e → count_urls content = .error e) ∧
    extract_sitemaps "<sitemapindex><sitemap" = .error "unclosed tag" ∧
    count_urls "<urlset><url" = .error "unclosed tag" ∧
    extract_sitemaps "<sitemapindex><sitemap></sitemapindex>" = .error "end event mismatch" ∧
    count_urls "<urlset><url></urlset>" = .error "end event mismatch" := by
  refine ⟨?_, ?_, rfl, rfl, rfl, rfl⟩
  · intro content e he
    simp [extract_sitemaps, he]
  · intro content e he
    simp [count_urls, he]

/-- C7, witness: the propagation part applied at a concrete truncated
document. -/
theorem scanners_error_on_malformed_witness :
    extract_sitemaps "<x" = .error "unclosed tag" :=
  scanners_error_on_malformed.1 "<x" "unclosed tag" (by rfl)

/-- C8: `clean_xml_content` applies the four entity replacements in the
source's fixed order and then trims, one pass per entity type rather than a
recursive unescape: the doubly escaped input yields the singly escaped
output (because the amp pass runs last), each entity is replaced, and
surrounding whitespace is trimmed. The function is total, so it always
succeeds. -/
theorem clean_xml_single_pass_order_trim :
    clean_xml_content "&amp;lt;" = "&lt;" ∧
    clean_xml_content "&amp;gt;" = "&gt;" ∧
    clean_xml_content "&lt;&gt;&quot;&amp;" = "<>\"&" ∧
    clean_xml_content "  <a>hi</a>  " = "<a>hi</a>" :=
  ⟨rfl, rfl, rfl, rfl⟩

/-- C9: neither scanner resets its inner `in_loc` flag when a `loc` element
ends without a text node. In a well-formed document with an empty
`<loc></loc>` inside a `sitemap` (respectively `url`) element, the next text
node anywhere later — here inside an unrelated `other` element, outside any
`sitemap`/`url` element — is appended as a child sitemap URL (respectively
counted). The contrast documents without the empty `loc` show the same
stray text is otherwise ignored. -/
theorem stuck_in_loc_flag :
    extract_sitemaps "<root><sitemap><loc></loc></sitemap><other>STRAY</other></root>" = .ok ["STRAY"] ∧
    count_urls "<root><url><loc></loc></url><other>STRAY</other></root>" = .ok 1 ∧
    extract_sitemaps "<root><sitemap></sitemap><other>STRAY</other></root>" = .ok [] ∧
    count_urls "<root><url></url><other>STRAY</other></root>" = .ok 0 :=
  ⟨rfl, rfl, rfl, rfl⟩

/-- A successfully fetched body of 501 bytes of valid UTF-8 whose byte 500
falls inside the two-byte encoding of the final character. -/
def longContent : String :=
  String.mk (List.replicate 499 'a' ++ ['é'])

set_option maxRecDepth 200000 in
/-- C10: for this valid UTF-8 content longer than 500 bytes, byte index 500
falls inside a multi-byte character, so the debug snippet slice
`&content[..min(500, content.len())]` in `fetch_url` is not on a character
boundary and the slicing operation panics, even though the fetch itself
succeeds on the same bytes. -/
theorem debug_snippet_panics_on_multibyte :
    (utf8Decode (utf8Bytes longContent)).isSome = true ∧
    (utf8Bytes longContent).length = 501 ∧
    isOkE (fetch_url mainClient "https://example.com/sitemap.xml"
      (CurlOutcome.output (utf8Bytes longContent))) = true ∧
    isCharBoundary (utf8Bytes longContent) (debugSnippetEnd (utf8Bytes longContent)) = false ∧
    debugSnippetPanics (utf8Bytes longContent) = true :=
  ⟨rfl, rfl, rfl, rfl, rfl⟩

end SitemapCounter
